import Mathlib

/-!
Shallow embedding of `language-salary.py` (vacancy-salary statistics script).

The script downloads programmer vacancies from two providers (hh.ru and
superjob.ru) with a paginated retry loop, estimates a ruble salary per vacancy
from a partial salary range, and aggregates per-language statistics.

Modelling conventions:
* Salary bounds and estimates are `Option Nat` — `none` is Python's `None`,
  `some n` an integral ruble amount (the provider APIs deliver integers or
  null in the salary fields).
* Python truthiness on such a value (`bool(x)`) is `truthyOpt`: `None` and
  `0` are falsy.
* The float products `x * 1.2` and `y * 0.8` of `predict_salary` are
  modelled exactly over the rationals: for a natural `x`, `int(x * 1.2)`
  truncates the nonnegative product toward zero, i.e. `x * 6 / 5` in natural
  division, and `int(y * 0.8)` is `y * 4 / 5`.
* An uncaught Python exception (the `ZeroDivisionError` of `get_statistics`)
  is modelled as the result `none`.
* The network is an oracle `Nat → Response`: the outcome of the n-th
  `requests.get` call of a run.  A fetch loop is a step function on an
  explicit state plus a fuel-indexed iterate; the state carries the local
  variables of the Python loop (`page`, `number_of_pages` / `more_pages`,
  `vacancies`) together with the number of requests issued so far
  (`attempt`, the next oracle index) and the total time slept in backoff
  (`slept`, 30 units per connection failure).
-/

/-- Python truthiness of an optional integer: `None` and `0` are falsy. -/
def truthyOpt (x : Option Nat) : Bool :=
  match x with
  | none => false
  | some n => n != 0

/-- Embedding of `predict_salary(salary_from, salary_to)`: the source
dispatches through a dict keyed by `(bool(salary_from), bool(salary_to))`
to one of four lambdas: midpoint `(x + y) // 2`, `int(x * 1.2)`,
`int(y * 0.8)`, or `None`. -/
def predict_salary (salary_from salary_to : Option Nat) : Option Nat :=
  match truthyOpt salary_from, truthyOpt salary_to with
  | true, true => some ((salary_from.getD 0 + salary_to.getD 0) / 2)
  | true, false => some (salary_from.getD 0 * 6 / 5)
  | false, true => some (salary_to.getD 0 * 4 / 5)
  | false, false => none

/-- Salary sub-record of an hh.ru vacancy; the Python dict keys are
`currency`, `from`, `to` (renamed `salary_from`/`salary_to`: `from` is a
Lean keyword). -/
structure HHSalary where
  currency : String
  salary_from : Option Nat
  salary_to : Option Nat
deriving DecidableEq

/-- An hh.ru vacancy record, restricted to the one field the script reads:
`salary`, which may be null. -/
structure HHVacancy where
  salary : Option HHSalary
deriving DecidableEq

/-- A superjob.ru vacancy record, restricted to the fields the script
reads: `currency`, `payment_from`, `payment_to`. -/
structure SJVacancy where
  currency : String
  payment_from : Option Nat
  payment_to : Option Nat
deriving DecidableEq

/-- Embedding of `predict_rub_salary_hh(vacancy)`: `None` for a falsy
vacancy, a falsy (null) `salary` sub-record, or a currency other than
`'RUR'`; otherwise defers to `predict_salary`. -/
def predict_rub_salary_hh (vacancy : Option HHVacancy) : Option Nat :=
  match vacancy with
  | none => none
  | some v =>
    match v.salary with
    | none => none
    | some salary =>
      if salary.currency ≠ "RUR" then none
      else predict_salary salary.salary_from salary.salary_to

/-- Embedding of `predict_rub_salary_sj(vacancy)`: `None` for a falsy
vacancy or a currency other than `'rub'`; otherwise defers to
`predict_salary`. -/
def predict_rub_salary_sj (vacancy : Option SJVacancy) : Option Nat :=
  match vacancy with
  | none => none
  | some v =>
    if v.currency ≠ "rub" then none
    else predict_salary v.payment_from v.payment_to

/-- Embedding of `get_statistics(language, vacancies, predict_salaries)`.
The source filters the estimates by truthiness (`[x for x in
predict_salaries if x]`, dropping both `None` and `0`), then computes
`sum(filtered) // len(filtered)` with no guard: on an empty filtered list
this raises `ZeroDivisionError`, modelled as `none`.  Otherwise the row
`[language, vacancies_found, vacancies_processed, average_salary]` is
returned as a tuple. -/
def get_statistics {α : Type} (language : String) (vacancies : List α)
    (predict_salaries : List (Option Nat)) : Option (String × Nat × Nat × Nat) :=
  let filtered := (predict_salaries.filter truthyOpt).map (fun x => x.getD 0)
  if filtered.length = 0 then none
  else some (language, vacancies.length, filtered.length,
    filtered.sum / filtered.length)

/-- Outcome of one `requests.get` call in `download_vacancies_hh`:
a 2xx response with its JSON body (`items` list and declared `pages`
count), an HTTP-level error status raised by `raise_for_status`, or a
connection-level failure raised by the transport. -/
inductive HHResponse (V : Type) where
  | success (items : List V) (pages : Nat)
  | httpError
  | connectionError
deriving DecidableEq

/-- Outcome of one `requests.get` call in `download_vacancies_sj`:
a 2xx response with its JSON body (`objects` list and `more` flag), an
HTTP-level error status, or a connection-level failure. -/
inductive SJResponse (V : Type) where
  | success (objects : List V) (more : Bool)
  | httpError
  | connectionError
deriving DecidableEq

/-- Local variables of the `download_vacancies_hh` loop: `page`,
`number_of_pages`, `vacancies`, plus model bookkeeping — `attempt` is the
number of requests issued so far (the next oracle index) and `slept` the
total backoff time (`time.sleep(30)` per connection failure). -/
structure HHState (V : Type) where
  page : Nat
  number_of_pages : Nat
  vacancies : List V
  attempt : Nat
  slept : Nat
deriving DecidableEq

/-- Local variables of the `download_vacancies_sj` loop: `page`,
`more_pages`, `vacancies`, plus the same `attempt` and `slept`
bookkeeping as `HHState`. -/
structure SJState (V : Type) where
  page : Nat
  more_pages : Bool
  vacancies : List V
  attempt : Nat
  slept : Nat
deriving DecidableEq

variable {V : Type}

/-- Loop guard of `download_vacancies_hh`: the `while page <
number_of_pages` loop has exited. -/
def hhDone (s : HHState V) : Bool :=
  decide (s.number_of_pages ≤ s.page)

/-- Loop guard of `download_vacancies_sj`: the `while more_pages` loop
has exited. -/
def sjDone (s : SJState V) : Bool :=
  !s.more_pages

/-- One iteration of the inner `while True` body of
`download_vacancies_hh`: on success extend `vacancies` with the page's
`items`, take `number_of_pages` from the body, `break`, `page += 1`; on
`HTTPError` only `break` and `page += 1`; on `ConnectionError` sleep 30
and `continue` with the same page. -/
def hhStep (oracle : Nat → HHResponse V) (s : HHState V) : HHState V :=
  match oracle s.attempt with
  | .success items pages =>
    ⟨s.page + 1, pages, s.vacancies ++ items, s.attempt + 1, s.slept⟩
  | .httpError =>
    ⟨s.page + 1, s.number_of_pages, s.vacancies, s.attempt + 1, s.slept⟩
  | .connectionError =>
    ⟨s.page, s.number_of_pages, s.vacancies, s.attempt + 1, s.slept + 30⟩

/-- One iteration of the inner `while True` body of
`download_vacancies_sj`; the success case takes `more_pages` from the
body's `more` flag. -/
def sjStep (oracle : Nat → SJResponse V) (s : SJState V) : SJState V :=
  match oracle s.attempt with
  | .success objects more =>
    ⟨s.page + 1, more, s.vacancies ++ objects, s.attempt + 1, s.slept⟩
  | .httpError =>
    ⟨s.page + 1, s.more_pages, s.vacancies, s.attempt + 1, s.slept⟩
  | .connectionError =>
    ⟨s.page, s.more_pages, s.vacancies, s.attempt + 1, s.slept + 30⟩

/-- Fuel-indexed iterate of the `download_vacancies_hh` loop: stop as
soon as the guard fails, otherwise take one step. -/
def hhRun (oracle : Nat → HHResponse V) : Nat → HHState V → HHState V
  | 0, s => s
  | fuel + 1, s => if hhDone s then s else hhRun oracle fuel (hhStep oracle s)

/-- Fuel-indexed iterate of the `download_vacancies_sj` loop. -/
def sjRun (oracle : Nat → SJResponse V) : Nat → SJState V → SJState V
  | 0, s => s
  | fuel + 1, s => if sjDone s then s else sjRun oracle fuel (sjStep oracle s)

/-- Initial state of `download_vacancies_hh`: `page = 0`,
`number_of_pages = 1`, empty accumulator. -/
def hhInit (V : Type) : HHState V := ⟨0, 1, [], 0, 0⟩

/-- Initial state of `download_vacancies_sj`: `page = 0`,
`more_pages = True`, empty accumulator. -/
def sjInit (V : Type) : SJState V := ⟨0, true, [], 0, 0⟩

/-- Embedding of `download_vacancies_hh(language)`: the accumulated
vacancy list after running the loop (fuel-bounded). -/
def download_vacancies_hh (oracle : Nat → HHResponse V) (fuel : Nat) : List V :=
  (hhRun oracle fuel (hhInit V)).vacancies

/-- Embedding of `download_vacancies_sj(language, secret_key)`: the
accumulated vacancy list after running the loop (fuel-bounded). -/
def download_vacancies_sj (oracle : Nat → SJResponse V) (fuel : Nat) : List V :=
  (sjRun oracle fuel (sjInit V)).vacancies

/-- Concrete oracle: two connection failures, then every request
succeeds with one item `7` on a single declared page. -/
def hhRetryOracle : Nat → HHResponse Nat := fun i =>
  if i < 2 then HHResponse.connectionError else HHResponse.success [7] 1

/-- Concrete oracle: two connection failures, then every request
succeeds with one item `9` and no further pages. -/
def sjRetryOracle : Nat → SJResponse Nat := fun i =>
  if i < 2 then SJResponse.connectionError else SJResponse.success [9] false

/-- Concrete oracle: the first request gets an HTTP error status, later
requests succeed with one item `5` on two declared pages. -/
def hhHttpOracle : Nat → HHResponse Nat := fun i =>
  if i = 0 then HHResponse.httpError else HHResponse.success [5] 2

/-- Concrete oracle: the first request gets an HTTP error status, later
requests succeed with one item `5` and no further pages. -/
def sjHttpOracle : Nat → SJResponse Nat := fun i =>
  if i = 0 then SJResponse.httpError else SJResponse.success [5] false

/-- Concrete oracle: every request gets an HTTP error status. -/
def hhAllHttpOracle : Nat → HHResponse Nat := fun _ =>
  HHResponse.httpError

/-- Concrete oracle: every request succeeds with zero items but declares
ever more pages than have been visited. -/
def hhGrowOracle : Nat → HHResponse Nat := fun i =>
  HHResponse.success [] (i + 2)

/-- Concrete oracle: every request succeeds with zero items and
`more = true`. -/
def sjMoreOracle : Nat → SJResponse Nat := fun _ =>
  SJResponse.success [] true

/-- Concrete oracle: every request succeeds with zero items on a single
declared page. -/
def hhOnePageOracle : Nat → HHResponse Nat := fun _ =>
  HHResponse.success [] 1

/-- Concrete oracle: every request succeeds with zero items and
`more = false`. -/
def sjLastPageOracle : Nat → SJResponse Nat := fun _ =>
  SJResponse.success [] false

theorem hhRun_of_done (oracle : Nat → HHResponse V) (n : Nat) (s : HHState V)
    (h : hhDone s = true) : hhRun oracle n s = s := by
  cases n <;> simp [hhRun, h]

theorem sjRun_of_done (oracle : Nat → SJResponse V) (n : Nat) (s : SJState V)
    (h : sjDone s = true) : sjRun oracle n s = s := by
  cases n <;> simp [sjRun, h]

theorem hhRun_add (oracle : Nat → HHResponse V) (a b : Nat) (s : HHState V) :
    hhRun oracle (a + b) s = hhRun oracle b (hhRun oracle a s) := by
  induction a generalizing s with
  | zero => simp [hhRun]
  | succ a ih =>
    rw [show a + 1 + b = (a + b) + 1 by omega]
    by_cases h : hhDone s = true
    · rw [hhRun_of_done _ _ _ h, hhRun_of_done _ (a + 1) _ h, hhRun_of_done _ _ _ h]
    · have h' : hhDone s = false := eq_false_of_ne_true h
      show hhRun oracle ((a + b) + 1) s = hhRun oracle b (hhRun oracle (a + 1) s)
      simp only [hhRun, h', Bool.false_eq_true, if_false]
      exact ih (hhStep oracle s)

theorem sjRun_add (oracle : Nat → SJResponse V) (a b : Nat) (s : SJState V) :
    sjRun oracle (a + b) s = sjRun oracle b (sjRun oracle a s) := by
  induction a generalizing s with
  | zero => simp [sjRun]
  | succ a ih =>
    rw [show a + 1 + b = (a + b) + 1 by omega]
    by_cases h : sjDone s = true
    · rw [sjRun_of_done _ _ _ h, sjRun_of_done _ (a + 1) _ h, sjRun_of_done _ _ _ h]
    · have h' : sjDone s = false := eq_false_of_ne_true h
      show sjRun oracle ((a + b) + 1) s = sjRun oracle b (sjRun oracle (a + 1) s)
      simp only [sjRun, h', Bool.false_eq_true, if_false]
      exact ih (sjStep oracle s)

theorem hhRun_one (oracle : Nat → HHResponse V) (s : HHState V)
    (h : hhDone s = false) : hhRun oracle 1 s = hhStep oracle s := by
  simp [hhRun, h]

theorem sjRun_one (oracle : Nat → SJResponse V) (s : SJState V)
    (h : sjDone s = false) : sjRun oracle 1 s = sjStep oracle s := by
  simp [sjRun, h]

theorem hhRun_conn_skip (oracle : Nat → HHResponse V) (k : Nat) :
    ∀ s : HHState V, hhDone s = false →
      (∀ m, m < k → oracle (s.attempt + m) = HHResponse.connectionError) →
      hhRun oracle k s =
        ⟨s.page, s.number_of_pages, s.vacancies, s.attempt + k, s.slept + 30 * k⟩ := by
  induction k with
  | zero => intro s h hc; simp [hhRun]
  | succ k ih =>
    intro s h hc
    have h0 : oracle s.attempt = HHResponse.connectionError := by
      simpa using hc 0 (Nat.succ_pos k)
    have hstep : hhStep oracle s =
        ⟨s.page, s.number_of_pages, s.vacancies, s.attempt + 1, s.slept + 30⟩ := by
      simp [hhStep, h0]
    have hrun : hhRun oracle (k + 1) s = hhRun oracle k (hhStep oracle s) := by
      simp [hhRun, h]
    have hd' : hhDone (⟨s.page, s.number_of_pages, s.vacancies,
        s.attempt + 1, s.slept + 30⟩ : HHState V) = false := h
    have hc' : ∀ m, m < k →
        oracle ((s.attempt + 1) + m) = HHResponse.connectionError := by
      intro m hm
      rw [show s.attempt + 1 + m = s.attempt + (m + 1) by omega]
      exact hc (m + 1) (by omega)
    rw [hrun, hstep, ih _ hd' hc']
    simp only [HHState.mk.injEq]
    refine ⟨trivial, trivial, trivial, by omega, by omega⟩

theorem sjRun_conn_skip (oracle : Nat → SJResponse V) (k : Nat) :
    ∀ s : SJState V, sjDone s = false →
      (∀ m, m < k → oracle (s.attempt + m) = SJResponse.connectionError) →
      sjRun oracle k s =
        ⟨s.page, s.more_pages, s.vacancies, s.attempt + k, s.slept + 30 * k⟩ := by
  induction k with
  | zero => intro s h hc; simp [sjRun]
  | succ k ih =>
    intro s h hc
    have h0 : oracle s.attempt = SJResponse.connectionError := by
      simpa using hc 0 (Nat.succ_pos k)
    have hstep : sjStep oracle s =
        ⟨s.page, s.more_pages, s.vacancies, s.attempt + 1, s.slept + 30⟩ := by
      simp [sjStep, h0]
    have hrun : sjRun oracle (k + 1) s = sjRun oracle k (sjStep oracle s) := by
      simp [sjRun, h]
    have hd' : sjDone (⟨s.page, s.more_pages, s.vacancies,
        s.attempt + 1, s.slept + 30⟩ : SJState V) = false := h
    have hc' : ∀ m, m < k →
        oracle ((s.attempt + 1) + m) = SJResponse.connectionError := by
      intro m hm
      rw [show s.attempt + 1 + m = s.attempt + (m + 1) by omega]
      exact hc (m + 1) (by omega)
    rw [hrun, hstep, ih _ hd' hc']
    simp only [SJState.mk.injEq]
    refine ⟨trivial, trivial, trivial, by omega, by omega⟩

theorem hh_retry_aux (oracle : Nat → HHResponse V) (s : HHState V)
    (N : Nat) (items : List V) (pages : Nat) (hd : hhDone s = false)
    (hc : ∀ m, m < N → oracle (s.attempt + m) = HHResponse.connectionError)
    (hs : oracle (s.attempt + N) = HHResponse.success items pages) :
    hhRun oracle (N + 1) s =
      ⟨s.page + 1, pages, s.vacancies ++ items, s.attempt + N + 1, s.slept + 30 * N⟩ ∧
    ∀ k, k ≤ N → (hhRun oracle k s).page = s.page := by
  constructor
  · have hd' : hhDone (⟨s.page, s.number_of_pages, s.vacancies,
        s.attempt + N, s.slept + 30 * N⟩ : HHState V) = false := hd
    rw [hhRun_add oracle N 1 s, hhRun_conn_skip oracle N s hd hc,
      hhRun_one oracle _ hd']
    simp [hhStep, hs]
  · intro k hk
    rw [hhRun_conn_skip oracle k s hd (fun m hm => hc m (by omega))]

theorem sj_retry_aux (oracle : Nat → SJResponse V) (s : SJState V)
    (N : Nat) (objects : List V) (more : Bool) (hd : sjDone s = false)
    (hc : ∀ m, m < N → oracle (s.attempt + m) = SJResponse.connectionError)
    (hs : oracle (s.attempt + N) = SJResponse.success objects more) :
    sjRun oracle (N + 1) s =
      ⟨s.page + 1, more, s.vacancies ++ objects, s.attempt + N + 1, s.slept + 30 * N⟩ ∧
    ∀ k, k ≤ N → (sjRun oracle k s).page = s.page := by
  constructor
  · have hd' : sjDone (⟨s.page, s.more_pages, s.vacancies,
        s.attempt + N, s.slept + 30 * N⟩ : SJState V) = false := hd
    rw [sjRun_add oracle N 1 s, sjRun_conn_skip oracle N s hd hc,
      sjRun_one oracle _ hd']
    simp [sjStep, hs]
  · intro k hk
    rw [sjRun_conn_skip oracle k s hd (fun m hm => hc m (by omega))]

theorem hh_advance_one (oracle : Nat → HHResponse V) (B : Nat)
    (hB : ∀ i items pages, oracle i = HHResponse.success items pages → pages ≤ B)
    (s : HHState V) (hd : hhDone s = false)
    (hnop : s.number_of_pages ≤ B + 1)
    (hnc : oracle s.attempt ≠ HHResponse.connectionError) :
    (hhRun oracle 1 s).page = s.page + 1 ∧
    (hhRun oracle 1 s).number_of_pages ≤ B + 1 := by
  rw [hhRun_one oracle s hd]
  cases hres : oracle s.attempt with
  | success items pages =>
    refine ⟨by simp [hhStep, hres], ?_⟩
    have := hB s.attempt items pages hres
    simp [hhStep, hres]
    omega
  | httpError =>
    refine ⟨by simp [hhStep, hres], ?_⟩
    simp [hhStep, hres]
    exact hnop
  | connectionError => exact absurd hres hnc

theorem hh_advance (oracle : Nat → HHResponse V) (B : Nat)
    (hB : ∀ i items pages, oracle i = HHResponse.success items pages → pages ≤ B)
    (t : Nat) :
    ∀ s : HHState V, hhDone s = false → s.number_of_pages ≤ B + 1 →
      oracle (s.attempt + t) ≠ HHResponse.connectionError →
      ∃ n, (hhRun oracle n s).page = s.page + 1 ∧
        (hhRun oracle n s).number_of_pages ≤ B + 1 := by
  induction t with
  | zero =>
    intro s hd hnop hnc
    exact ⟨1, hh_advance_one oracle B hB s hd hnop (by simpa using hnc)⟩
  | succ t ih =>
    intro s hd hnop hnc
    cases hres : oracle s.attempt with
    | success items pages =>
      exact ⟨1, hh_advance_one oracle B hB s hd hnop (by simp [hres])⟩
    | httpError =>
      exact ⟨1, hh_advance_one oracle B hB s hd hnop (by simp [hres])⟩
    | connectionError =>
      have hstep : hhStep oracle s = ⟨s.page, s.number_of_pages, s.vacancies,
          s.attempt + 1, s.slept + 30⟩ := by simp [hhStep, hres]
      have hd' : hhDone (⟨s.page, s.number_of_pages, s.vacancies,
          s.attempt + 1, s.slept + 30⟩ : HHState V) = false := hd
      have hnc' : oracle (s.attempt + 1 + t) ≠ HHResponse.connectionError := by
        rw [show s.attempt + 1 + t = s.attempt + (t + 1) by omega]
        exact hnc
      obtain ⟨n, h1, h2⟩ := ih ⟨s.page, s.number_of_pages, s.vacancies,
        s.attempt + 1, s.slept + 30⟩ hd' hnop hnc'
      have hone : hhRun oracle (n + 1) s = hhRun oracle n (hhStep oracle s) := by
        simp [hhRun, hd]
      refine ⟨n + 1, ?_, ?_⟩
      · rw [hone, hstep]; exact h1
      · rw [hone, hstep]; exact h2

theorem hh_term_aux (oracle : Nat → HHResponse V) (B : Nat)
    (hB : ∀ i items pages, oracle i = HHResponse.success items pages → pages ≤ B)
    (hH : ∀ i, ∃ j, i ≤ j ∧ oracle j ≠ HHResponse.connectionError) (d : Nat) :
    ∀ s : HHState V, s.number_of_pages ≤ B + 1 → B + 1 - s.page ≤ d →
      ∃ n, hhDone (hhRun oracle n s) = true := by
  induction d with
  | zero =>
    intro s hnop hle
    refine ⟨0, ?_⟩
    show hhDone s = true
    simp only [hhDone, decide_eq_true_eq]
    omega
  | succ d ih =>
    intro s hnop hle
    by_cases hd : hhDone s = true
    · exact ⟨0, hd⟩
    · have hd' : hhDone s = false := eq_false_of_ne_true hd
      have hpage : s.page < s.number_of_pages := by
        have h := hd'
        simp only [hhDone, decide_eq_false_iff_not] at h
        omega
      obtain ⟨j, hj1, hj2⟩ := hH s.attempt
      have hnc : oracle (s.attempt + (j - s.attempt)) ≠ HHResponse.connectionError := by
        rw [show s.attempt + (j - s.attempt) = j by omega]
        exact hj2
      obtain ⟨n1, h1, h2⟩ := hh_advance oracle B hB (j - s.attempt) s hd' hnop hnc
      have hle' : B + 1 - (hhRun oracle n1 s).page ≤ d := by rw [h1]; omega
      obtain ⟨n2, hn2⟩ := ih (hhRun oracle n1 s) h2 hle'
      exact ⟨n1 + n2, by rw [hhRun_add]; exact hn2⟩

theorem sj_term_aux (oracle : Nat → SJResponse V) (objects : List V) (t : Nat) :
    ∀ s : SJState V, oracle (s.attempt + t) = SJResponse.success objects false →
      ∃ n, sjDone (sjRun oracle n s) = true := by
  induction t with
  | zero =>
    intro s hsucc
    by_cases hd : sjDone s = true
    · exact ⟨0, hd⟩
    · have hd' : sjDone s = false := eq_false_of_ne_true hd
      refine ⟨1, ?_⟩
      rw [sjRun_one oracle s hd']
      have h0 : oracle s.attempt = SJResponse.success objects false := by
        simpa using hsucc
      simp [sjStep, h0, sjDone]
  | succ t ih =>
    intro s hsucc
    by_cases hd : sjDone s = true
    · exact ⟨0, hd⟩
    · have hd' : sjDone s = false := eq_false_of_ne_true hd
      have hstep_att : (sjStep oracle s).attempt = s.attempt + 1 := by
        cases hres : oracle s.attempt <;> simp [sjStep, hres]
      have hsucc' : oracle ((sjStep oracle s).attempt + t) =
          SJResponse.success objects false := by
        rw [hstep_att, show s.attempt + 1 + t = s.attempt + (t + 1) by omega]
        exact hsucc
      obtain ⟨n, hn⟩ := ih (sjStep oracle s) hsucc'
      refine ⟨n + 1, ?_⟩
      have hone : sjRun oracle (n + 1) s = sjRun oracle n (sjStep oracle s) := by
        simp [sjRun, hd']
      rw [hone]
      exact hn

theorem hhGrow_state (n : Nat) :
    hhRun hhGrowOracle n (hhInit Nat) = ⟨n, n + 1, [], n, 0⟩ := by
  induction n with
  | zero => rfl
  | succ n ih =>
    have hdne : hhDone (⟨n, n + 1, [], n, 0⟩ : HHState Nat) = false := by
      simp only [hhDone, decide_eq_false_iff_not]
      omega
    rw [hhRun_add _ n 1 _, ih, hhRun_one _ _ hdne]
    simp [hhStep, hhGrowOracle]

theorem sjMore_state (n : Nat) :
    sjRun sjMoreOracle n (sjInit Nat) = ⟨n, true, [], n, 0⟩ := by
  induction n with
  | zero => rfl
  | succ n ih =>
    have hdne : sjDone (⟨n, true, [], n, 0⟩ : SJState Nat) = false := rfl
    rw [sjRun_add _ n 1 _, ih, sjRun_one _ _ hdne]
    simp [sjStep, sjMoreOracle]

section Theorems

/-- C1 counterexample: a lower bound of `0` is a present salary bound, and
the upper bound `200` is present, so the four-case rule of §4.2 demands the
midpoint `(0 + 200) / 2 = 100`; the code instead takes the `0.8`-branch and
returns `160`, because its dispatch treats the falsy `0` as absent. -/
theorem c1_counterexample :
    predict_salary (some 0) (some 200) = some 160 ∧ ((0 + 200) / 2 : Nat) = 100 ∧
      predict_salary (some 0) (some 200) ≠ some ((0 + 200) / 2) := by
  refine ⟨rfl, rfl, ?_⟩
  decide

/-- C1 (amended): with presence read as truthiness (non-null and nonzero),
`predict_salary` follows the four-case rule of §4.2 exactly — both truthy:
truncated midpoint; only lower: `lower * 1.2` truncated; only upper:
`upper * 0.8` truncated; neither: absent — and the four example
evaluations of the claim hold as stated. -/
theorem c1_amended (salary_from salary_to : Option Nat) :
    (truthyOpt salary_from = true → truthyOpt salary_to = true →
      predict_salary salary_from salary_to =
        some ((salary_from.getD 0 + salary_to.getD 0) / 2)) ∧
    (truthyOpt salary_from = true → truthyOpt salary_to = false →
      predict_salary salary_from salary_to = some (salary_from.getD 0 * 6 / 5)) ∧
    (truthyOpt salary_from = false → truthyOpt salary_to = true →
      predict_salary salary_from salary_to = some (salary_to.getD 0 * 4 / 5)) ∧
    (truthyOpt salary_from = false → truthyOpt salary_to = false →
      predict_salary salary_from salary_to = none) ∧
    predict_salary (some 100) (some 200) = some 150 ∧
    predict_salary (some 100) none = some 120 ∧
    predict_salary none (some 200) = some 160 ∧
    predict_salary none none = none := by
  refine ⟨?_, ?_, ?_, ?_, rfl, rfl, rfl, rfl⟩ <;>
    intro h1 h2 <;> simp [predict_salary, h1, h2]

/-- C1 witness: the amended rule applied at the concrete bounds
`(100, 200)`, both truthy, yields the truncated midpoint `150`. -/
theorem c1_witness : predict_salary (some 100) (some 200) = some 150 := by
  have h := c1_amended (some 100) (some 200)
  simpa using h.1 (by decide) (by decide)

/-- C9: presence of a bound in `predict_salary` is decided by truthiness,
not by non-absence — a bound equal to `0` behaves exactly like an absent
bound, so `predict_salary(0, 200)` is `int(200 * 0.8) = 160`, not
`(0 + 200) // 2 = 100`, and `predict_salary(0, 0)` is absent. -/
theorem c9_truthiness :
    (∀ salary_to, predict_salary (some 0) salary_to = predict_salary none salary_to) ∧
    (∀ salary_from, predict_salary salary_from (some 0) = predict_salary salary_from none) ∧
    predict_salary (some 0) (some 200) = some 160 ∧
    predict_salary (some 0) (some 0) = none := by
  refine ⟨?_, ?_, rfl, rfl⟩
  · intro salary_to
    cases salary_to with
    | none => rfl
    | some n => simp [predict_salary, truthyOpt]
  · intro salary_from
    cases salary_from with
    | none => rfl
    | some n => cases h : truthyOpt (some n) <;> simp [predict_salary, truthyOpt, h]

/-- C4: each provider's estimator returns absent whenever the record's
currency is not the local ruble code (`'RUR'` for hh.ru, `'rub'` for
superjob.ru) or, for hh.ru, whenever the salary sub-structure is entirely
absent — regardless of the bounds present in the record. -/
theorem c4_currency_filter :
    (∀ v : HHVacancy, ∀ salary : HHSalary, v.salary = some salary →
      salary.currency ≠ "RUR" → predict_rub_salary_hh (some v) = none) ∧
    (∀ v : HHVacancy, v.salary = none → predict_rub_salary_hh (some v) = none) ∧
    (∀ v : SJVacancy, v.currency ≠ "rub" → predict_rub_salary_sj (some v) = none) := by
  refine ⟨?_, ?_, ?_⟩
  · intro v salary hv hc
    simp [predict_rub_salary_hh, hv, hc]
  · intro v hv
    simp [predict_rub_salary_hh, hv]
  · intro v hc
    simp [predict_rub_salary_sj, hc]

/-- C4 witness: a dollar-denominated hh.ru record with both bounds, an
hh.ru record with a null salary block, and a dollar-denominated
superjob.ru record all estimate to absent. -/
theorem c4_witness :
    predict_rub_salary_hh (some ⟨some ⟨"USD", some 100, some 200⟩⟩) = none ∧
    predict_rub_salary_hh (some ⟨none⟩) = none ∧
    predict_rub_salary_sj (some ⟨"usd", some 100, some 200⟩) = none := by
  have h := c4_currency_filter
  exact ⟨h.1 ⟨some ⟨"USD", some 100, some 200⟩⟩ ⟨"USD", some 100, some 200⟩ rfl (by decide),
    h.2.1 ⟨none⟩ rfl,
    h.2.2 ⟨"usd", some 100, some 200⟩ (by decide)⟩

/-- C2: the claim asks for a defined sentinel when no estimate is present;
the source instead computes `sum([]) // len([])` and raises
`ZeroDivisionError` (modelled here as `none`).  The spec itself records
this guard as missing from the reference script: the code is the slip.
At the failing input — one vacancy, estimates `[None]` — the aggregator
faults instead of producing `processed = 0` with a sentinel average. -/
theorem c2_division_fault :
    get_statistics "Go" [(0 : Nat)] [none] = none ∧
    get_statistics "Go" [(0 : Nat), 1] [none, none] = none := by
  constructor <;> rfl

/-- C3 counterexample: a zero estimate is present (non-absent) — and
reachable, since `predict_salary none (some 1) = some 0` — yet the
aggregator's truthiness filter drops it: on vacancies of length 2 with
estimates `[some 0, some 1000]` the claim demands `processed = 2` and
`average = 500`, but the code returns `processed = 1`, `average = 1000`. -/
theorem c3_counterexample :
    predict_salary none (some 1) = some 0 ∧
    get_statistics "Go" [(0 : Nat), 1] [some 0, some 1000] = some ("Go", 2, 1, 1000) ∧
    (List.filter (fun x => x.isSome) [some 0, some (1000 : Nat)]).length = 2 ∧
    get_statistics "Go" [(0 : Nat), 1] [some 0, some 1000] ≠ some ("Go", 2, 2, 500) := by
  refine ⟨rfl, rfl, rfl, ?_⟩
  decide

/-- C3 (amended): for every language, vacancy list and estimate list with
at least one truthy (non-absent and nonzero) estimate, the aggregator
returns `found` = length of the vacancy list, `processed` = count of
truthy estimates, and `average_salary` = integer-truncating mean of the
truthy estimates; in particular estimates
`[1000, absent, 2000, absent, absent]` over 5 vacancies give
`found = 5`, `processed = 2`, `average = 1500`. -/
theorem c3_amended {α : Type} (language : String) (vacancies : List α)
    (estimates : List (Option Nat)) (h : estimates.countP truthyOpt ≠ 0) :
    get_statistics language vacancies estimates =
      some (language, vacancies.length, estimates.countP truthyOpt,
        ((estimates.filter truthyOpt).map (fun x => x.getD 0)).sum /
          estimates.countP truthyOpt) := by
  rw [List.countP_eq_length_filter] at h ⊢
  have hlen : ((estimates.filter truthyOpt).map (fun x => x.getD 0)).length =
      (estimates.filter truthyOpt).length := List.length_map _ _
  simp only [get_statistics, hlen]
  rw [if_neg h]

/-- C3 witness: the amended aggregation rule applied at the claim's
example — estimates `[1000, absent, 2000, absent, absent]` over 5
vacancies — gives `found = 5`, `processed = 2`, `average = 1500`. -/
theorem c3_witness :
    get_statistics "Go" [(0 : Nat), 1, 2, 3, 4]
      [some 1000, none, some 2000, none, none] = some ("Go", 5, 2, 1500) := by
  have h := c3_amended "Go" [(0 : Nat), 1, 2, 3, 4]
    [some 1000, none, some 2000, none, none] (by decide)
  simpa using h

/-- C5: for every vacancy list and estimate list of the same length (one
estimate per vacancy), any row the aggregator produces satisfies
`processed ≤ found` — the filtered estimate list is no longer than the
estimate list, whose length is the vacancy count. -/
theorem c5_processed_le_found {α : Type} (language : String)
    (vacancies : List α) (estimates : List (Option Nat))
    (hlen : estimates.length = vacancies.length)
    (lang : String) (found processed average : Nat)
    (hrow : get_statistics language vacancies estimates =
      some (lang, found, processed, average)) :
    processed ≤ found := by
  simp only [get_statistics] at hrow
  split at hrow
  · exact absurd hrow (by simp)
  · have h1 : processed = ((estimates.filter truthyOpt).map
        (fun x => x.getD 0)).length := by
      have := hrow
      simp only [Option.some.injEq, Prod.mk.injEq] at this
      exact this.2.2.1.symm
    have h2 : found = vacancies.length := by
      have := hrow
      simp only [Option.some.injEq, Prod.mk.injEq] at this
      exact this.2.1.symm
    rw [h1, h2, ← hlen, List.length_map]
    exact List.length_filter_le _ _

/-- C5 witness: the invariant applied at one vacancy with the single
estimate `some 5`, where the produced row has `processed = 1 ≤ 1 = found`. -/
theorem c5_witness : (1 : Nat) ≤ 1 :=
  c5_processed_le_found "Go" [(0 : Nat)] [some 5] rfl "Go" 1 1 5 rfl

/-- C6: in either fetcher, a page request answered with an HTTP-level
error status appends no items to the accumulator, is not retried (the
very next request is for the next page index), leaves the pagination
bound unchanged, and the loop simply continues from the next page — one
failing page does not halt the fetch. -/
theorem c6_http_error_skip :
    (∀ (V : Type) (oracle : Nat → HHResponse V) (s : HHState V) (n : Nat),
      hhDone s = false → oracle s.attempt = HHResponse.httpError →
      hhRun oracle (n + 1) s = hhRun oracle n
        ⟨s.page + 1, s.number_of_pages, s.vacancies, s.attempt + 1, s.slept⟩) ∧
    (∀ (V : Type) (oracle : Nat → SJResponse V) (s : SJState V) (n : Nat),
      sjDone s = false → oracle s.attempt = SJResponse.httpError →
      sjRun oracle (n + 1) s = sjRun oracle n
        ⟨s.page + 1, s.more_pages, s.vacancies, s.attempt + 1, s.slept⟩) := by
  constructor
  · intro V oracle s n hd hres
    have : hhRun oracle (n + 1) s = hhRun oracle n (hhStep oracle s) := by
      simp [hhRun, hd]
    rw [this]
    congr 1
    simp [hhStep, hres]
  · intro V oracle s n hd hres
    have : sjRun oracle (n + 1) s = sjRun oracle n (sjStep oracle s) := by
      simp [sjRun, hd]
    rw [this]
    congr 1
    simp [sjStep, hres]

/-- C6 witness: with two declared pages where the request for page 0
fails with an HTTP error, the run continues at page 1 with an unchanged
empty accumulator and finishes having collected only page 1's item; the
superjob run behaves analogously. -/
theorem c6_witness :
    hhRun hhHttpOracle 2 ⟨0, 2, [], 0, 0⟩ = ⟨2, 2, [5], 2, 0⟩ ∧
    sjRun sjHttpOracle 2 (sjInit Nat) = ⟨2, false, [5], 2, 0⟩ := by
  constructor
  · have h := c6_http_error_skip.1 Nat hhHttpOracle ⟨0, 2, [], 0, 0⟩ 1
      (by decide) (by decide)
    rw [h]
    decide
  · have h := c6_http_error_skip.2 Nat sjHttpOracle (sjInit Nat) 1
      (by decide) (by decide)
    rw [h]
    decide

/-- C7: in either fetcher, if the requests for the current page fail with
a connection error `N` consecutive times and the next request succeeds,
the loop issues exactly `N + 1` requests for that page (the oracle index
advances by `N + 1`), retries the *same* page index throughout (the page
counter is unchanged during all `N` failed attempts), sleeps the fixed 30
time units after each failure (`30 * N` in total), and appends the page's
items to the accumulator exactly once. -/
theorem c7_retry :
    (∀ (V : Type) (oracle : Nat → HHResponse V) (s : HHState V)
      (N : Nat) (items : List V) (pages : Nat),
      hhDone s = false →
      (∀ m, m < N → oracle (s.attempt + m) = HHResponse.connectionError) →
      oracle (s.attempt + N) = HHResponse.success items pages →
      hhRun oracle (N + 1) s =
        ⟨s.page + 1, pages, s.vacancies ++ items, s.attempt + N + 1, s.slept + 30 * N⟩ ∧
      ∀ k, k ≤ N → (hhRun oracle k s).page = s.page) ∧
    (∀ (V : Type) (oracle : Nat → SJResponse V) (s : SJState V)
      (N : Nat) (objects : List V) (more : Bool),
      sjDone s = false →
      (∀ m, m < N → oracle (s.attempt + m) = SJResponse.connectionError) →
      oracle (s.attempt + N) = SJResponse.success objects more →
      sjRun oracle (N + 1) s =
        ⟨s.page + 1, more, s.vacancies ++ objects, s.attempt + N + 1, s.slept + 30 * N⟩ ∧
      ∀ k, k ≤ N → (sjRun oracle k s).page = s.page) := by
  constructor
  · intro V oracle s N items pages hd hc hs
    exact hh_retry_aux oracle s N items pages hd hc hs
  · intro V oracle s N objects more hd hc hs
    exact sj_retry_aux oracle s N objects more hd hc hs

/-- C7 witness: with two connection failures before page 0 finally
succeeds, each fetcher issues three requests, sleeps 60 time units, and
ends with the page's single item collected exactly once. -/
theorem c7_witness :
    hhRun hhRetryOracle 3 (hhInit Nat) = ⟨1, 1, [7], 3, 60⟩ ∧
    sjRun sjRetryOracle 3 (sjInit Nat) = ⟨1, false, [9], 3, 60⟩ := by
  constructor
  · have h := (c7_retry.1 Nat hhRetryOracle (hhInit Nat) 2 [7] 1
      (by decide) (by decide) (by decide)).1
    simpa using h
  · have h := (c7_retry.2 Nat sjRetryOracle (sjInit Nat) 2 [9] false
      (by decide) (by decide) (by decide)).1
    simpa using h

/-- C10: if the hh.ru request for page 0 returns an HTTP-level error
status, the fetch returns the empty list: the declared page count is
never learned, so `number_of_pages` keeps its initial value `1`, the
loop exits after that single request (`attempt = 1`), and no page beyond
index 0 is ever requested. -/
theorem c10_page0_http_error (V : Type) (oracle : Nat → HHResponse V)
    (h0 : oracle 0 = HHResponse.httpError) (n : Nat) (hn : 1 ≤ n) :
    hhRun oracle n (hhInit V) = ⟨1, 1, [], 1, 0⟩ ∧
    download_vacancies_hh oracle n = [] := by
  obtain ⟨m, rfl⟩ : ∃ m, n = m + 1 := ⟨n - 1, by omega⟩
  have hd : hhDone (hhInit V) = false := rfl
  have h1 : hhRun oracle (m + 1) (hhInit V) =
      hhRun oracle m (hhStep oracle (hhInit V)) := by
    simp [hhRun, hd]
  have hstep : hhStep oracle (hhInit V) = ⟨1, 1, [], 1, 0⟩ := by
    simp [hhStep, hhInit, h0]
  have hdone1 : hhDone (⟨1, 1, [], 1, 0⟩ : HHState V) = true := rfl
  have hfinal : hhRun oracle (m + 1) (hhInit V) = ⟨1, 1, [], 1, 0⟩ := by
    rw [h1, hstep, hhRun_of_done oracle m _ hdone1]
  exact ⟨hfinal, by simp [download_vacancies_hh, hfinal]⟩

/-- C10 witness: with every request failing at the HTTP level, one unit
of fuel already reaches the terminal state after the single page-0
request, and the downloaded list is empty. -/
theorem c10_witness :
    hhRun hhAllHttpOracle 1 (hhInit Nat) = ⟨1, 1, [], 1, 0⟩ ∧
    download_vacancies_hh hhAllHttpOracle 1 = [] :=
  c10_page0_http_error Nat hhAllHttpOracle rfl 1 (by decide)

/-- C8 counterexample: two concrete response sequences in which every
request yields a non-connection outcome (every request succeeds), yet
neither fetch loop ever terminates.  For hh.ru, each success declares
ever more pages (`pages = attempt + 2`), so the page counter never
reaches the declared count; for superjob.ru, every success reports
`more = true`.  At every fuel the loop guard is still live, refuting the
claim that the stated hypothesis alone forces termination. -/
theorem c8_counterexample :
    (fun n => hhDone (hhRun hhGrowOracle n (hhInit Nat))) = (fun _ => false) ∧
    (fun n => sjDone (sjRun sjMoreOracle n (sjInit Nat))) = (fun _ => false) := by
  constructor
  · funext n
    rw [hhGrow_state n]
    simp only [hhDone, decide_eq_false_iff_not]
    omega
  · funext n
    rw [sjMore_state n]
    rfl

/-- C8 (amended): for every sequence of provider responses in which
every request eventually yields a non-connection outcome, the fetch loop
terminates provided additionally that, for hh.ru, the page counts
declared by success responses are bounded, and, for superjob.ru, some
response reports `more = false` — even if each returned page contains
zero items. -/
theorem c8_amended :
    (∀ (V : Type) (oracle : Nat → HHResponse V) (B : Nat),
      (∀ i, ∃ j, i ≤ j ∧ oracle j ≠ HHResponse.connectionError) →
      (∀ i items pages, oracle i = HHResponse.success items pages → pages ≤ B) →
      ∃ n, hhDone (hhRun oracle n (hhInit V)) = true) ∧
    (∀ (V : Type) (oracle : Nat → SJResponse V) (j : Nat) (objects : List V),
      oracle j = SJResponse.success objects false →
      ∃ n, sjDone (sjRun oracle n (sjInit V)) = true) := by
  constructor
  · intro V oracle B hH hB
    exact hh_term_aux oracle B hB hH (B + 1) (hhInit V)
      (by show (1 : Nat) ≤ B + 1; omega)
      (by show B + 1 - 0 ≤ B + 1; omega)
  · intro V oracle j objects hsucc
    refine sj_term_aux oracle objects j (sjInit V) ?_
    show oracle (0 + j) = SJResponse.success objects false
    rw [Nat.zero_add]
    exact hsucc

/-- C8 witness: with every request succeeding with zero items — one
declared page for hh.ru, `more = false` for superjob.ru — both loops
reach their exit guard at some fuel. -/
theorem c8_witness :
    (∃ n, hhDone (hhRun hhOnePageOracle n (hhInit Nat)) = true) ∧
    (∃ n, sjDone (sjRun sjLastPageOracle n (sjInit Nat)) = true) := by
  constructor
  · exact c8_amended.1 Nat hhOnePageOracle 1
      (fun i => ⟨i, Nat.le_refl i, by simp [hhOnePageOracle]⟩)
      (fun i items pages h => by
        simp only [hhOnePageOracle, HHResponse.success.injEq] at h
        omega)
  · exact c8_amended.2 Nat sjLastPageOracle 0 [] rfl

end Theorems
